import Mathlib

/-!
Verification of the dns-sync reconciliation engine (`sync.py`).

The Python source is shallowly embedded below.  Parsed YAML documents are
modelled by the inductive `Yaml` (mapping keys are the strings produced by
`yaml.safe_load`); Python exceptions are modelled by the error type
`SyncError` carried in `Except`; the I/O collaborators of `DNSSync.sync`
(git, the filesystem, the Cloudflare client) are modelled by an `Env`
record of oracles, so that a run of `sync` is a pure function of its
environment.  String scanning is done over `List Char` so that every
definition evaluates by kernel reduction.
-/

namespace DnsSync

/-- A parsed YAML document, as produced by `yaml.safe_load`: `null`,
booleans, integers, strings, mappings (string keys, unique after parsing)
and sequences. -/
inductive Yaml where
  | null : Yaml
  | bool (b : Bool) : Yaml
  | int (n : Int) : Yaml
  | str (s : String) : Yaml
  | map (entries : List (String × Yaml)) : Yaml
  | list (items : List Yaml) : Yaml

/-- The Python exceptions that the script can raise, by kind.
`indexError` is the `parts[1]` failure in `get_changed_files`;
`validationError` is the `ValueError` raised by `load_yaml_record`
naming the missing field; `typeError` and `keyError` arise from
operating on a non-mapping document or a missing key; `ioError` stands
for any filesystem/git/HTTP transport failure; `providerError` for an
error response from the DNS provider. -/
inductive SyncError where
  | indexError : SyncError
  | validationError (field : String) : SyncError
  | typeError : SyncError
  | keyError (key : String) : SyncError
  | ioError : SyncError
  | providerError : SyncError
deriving DecidableEq

/-! ## Character-list string primitives

Python's `str.startswith`, `str.endswith`, substring `in`, and
`str.split` are embedded over `List Char` so they reduce in the kernel. -/

/-- Python `needle in hay` for strings: substring test. -/
def hasSubstring (needle : List Char) : List Char → Bool
  | [] => needle.isEmpty
  | c :: rest => needle.isPrefixOf (c :: rest) || hasSubstring needle rest

/-- Python `s.startswith(pfx)`. -/
def startsWithStr (s pfx : String) : Bool :=
  pfx.data.isPrefixOf s.data

/-- Python `s.endswith(sfx)`. -/
def endsWithStr (s sfx : String) : Bool :=
  sfx.data.isSuffixOf s.data

/-- Python `line.split("\t")` over the character list: split at every
tab.  Always returns a non-empty list, like CPython's `str.split` with
an explicit separator. -/
def splitOnTab : List Char → List (List Char)
  | [] => [[]]
  | c :: rest =>
    match splitOnTab rest with
    | [] => [[c]]
    | p :: ps => if c = '\t' then [] :: p :: ps else (c :: p) :: ps

/-! ## Change Classifier (`DNSSync.get_changed_files`)

The git subprocess output, after `.strip().split("\n")`, is a list of
lines.  Each non-empty line is split on tabs; `parts[0]` is the status
and `parts[1]` the path, and a line with no tab raises `IndexError`. -/

/-- `parts = line.split("\t"); (parts[0], parts[1])`, or `none` when the
line has no tab (in which case the Python code raises `IndexError`). -/
def parseLine (line : String) : Option (String × String) :=
  match splitOnTab line.data with
  | s :: p :: _ => some (⟨s⟩, ⟨p⟩)
  | _ => none

/-- The three path sets returned by `get_changed_files`.  Python uses
`set`; here each set is a duplicate-free insertion-ordered list, and
only membership is meaningful. -/
structure ChangeSet where
  added : List String
  modified : List String
  deleted : List String
deriving DecidableEq

/-- Python `set.add`: insert unless already a member. -/
def insertPath (p : String) (l : List String) : List String :=
  if p ∈ l then l else l ++ [p]

/-- The path filter of `get_changed_files`: inside `"<records_dir>/"`
and ending in `.yaml` or `.yml` (case-sensitive). -/
def keepPath (recordsDir p : String) : Bool :=
  startsWithStr p (recordsDir ++ "/") &&
    (endsWithStr p ".yaml" || endsWithStr p ".yml")

/-- Processing of one parsed `(status, path)` pair: filter on the path,
then dispatch on the status; statuses other than A/M/D fall through. -/
def classifyPair (recordsDir status path : String) (cs : ChangeSet) : ChangeSet :=
  if ¬ (keepPath recordsDir path = true) then cs
  else if status = "A" then { cs with added := insertPath path cs.added }
  else if status = "M" then { cs with modified := insertPath path cs.modified }
  else if status = "D" then { cs with deleted := insertPath path cs.deleted }
  else cs

/-- The loop body of `get_changed_files` over the report lines: skip
empty lines, raise `IndexError` on a tab-less line, otherwise classify
the pair into the accumulator. -/
def classifyLines (recordsDir : String) : List String → ChangeSet → Except SyncError ChangeSet
  | [], cs => .ok cs
  | line :: rest, cs =>
    if line = "" then classifyLines recordsDir rest cs
    else
      match parseLine line with
      | none => .error .indexError
      | some (s, p) => classifyLines recordsDir rest (classifyPair recordsDir s p cs)

/-- `DNSSync.get_changed_files`, as a function of the report lines. -/
def get_changed_files (recordsDir : String) (lines : List String) :
    Except SyncError ChangeSet :=
  classifyLines recordsDir lines ⟨[], [], []⟩

/-! ## Record Loader (`DNSSync.load_yaml_record`)

`load_yaml_record` checks `field not in record` for each required field.
Python's `in` on an arbitrary parsed document means: key lookup on a
mapping, substring test on a string, element equality on a sequence, and
a `TypeError` on `None`, booleans and integers. -/

/-- Python `key in dict` on the parsed mapping entries. -/
def hasKey (entries : List (String × Yaml)) (k : String) : Bool :=
  entries.any (fun e => e.1 = k)

/-- Python `field in record` for an arbitrary parsed document. -/
def pyContains (field : String) : Yaml → Except SyncError Bool
  | .map entries => .ok (hasKey entries field)
  | .str s => .ok (hasSubstring field.data s.data)
  | .list items =>
    .ok (items.any (fun v => match v with | .str s => s = field | _ => false))
  | .null => .error .typeError
  | .bool _ => .error .typeError
  | .int _ => .error .typeError

/-- The validation loop of `load_yaml_record` over the required fields,
in source order; the first absent field is reported. -/
def checkRequired (record : Yaml) : List String → Except SyncError Unit
  | [] => .ok ()
  | f :: rest =>
    match pyContains f record with
    | .error e => .error e
    | .ok true => checkRequired record rest
    | .ok false => .error (.validationError f)

/-- `DNSSync.load_yaml_record`, as a function of the parsed document:
validate presence of `name`, `type`, `content`, then return the document
unchanged (no defaulting). -/
def load_yaml_record (record : Yaml) : Except SyncError Yaml :=
  match checkRequired record ["name", "type", "content"] with
  | .error e => .error e
  | .ok _ => .ok record

/-! ## Typed records

Inside the sync loops the parsed dicts are only ever read through the
fields below, so they are represented by typed records.  An `Option`
field is `none` when the key is absent (or null) in the dict — the
script reads these fields with `dict.get`, for which the two cases
agree. -/

/-- A record definition as read from a YAML file (`type` is spelled
`rtype` because `type` is a Lean keyword). -/
structure DNSRecord where
  name : String
  rtype : String
  content : Option String
  ttl : Option Int
  proxied : Option Bool
  priority : Option Int
deriving DecidableEq

/-- A live Cloudflare record: the same fields plus the provider id. -/
structure CFRecord where
  id : String
  name : String
  rtype : String
  content : Option String
  ttl : Option Int
  proxied : Option Bool
  priority : Option Int
deriving DecidableEq

/-- First-match association lookup (parsed dicts have unique keys). -/
def pyLookup (k : String) : List (String × Yaml) → Option Yaml
  | [] => none
  | (k2, v) :: rest => if k2 = k then some v else pyLookup k rest

/-- Read a required string field (`record["name"]`): `KeyError` when
absent, `typeError` when the value is not a string. -/
def getStrField (entries : List (String × Yaml)) (k : String) :
    Except SyncError String :=
  match pyLookup k entries with
  | some (.str s) => .ok s
  | some _ => .error .typeError
  | none => .error (.keyError k)

/-- Read an optional string field: absent or null maps to `none`. -/
def getOptStrField (entries : List (String × Yaml)) (k : String) :
    Except SyncError (Option String) :=
  match pyLookup k entries with
  | some (.str s) => .ok (some s)
  | some .null => .ok none
  | some _ => .error .typeError
  | none => .ok none

/-- Read an optional integer field: absent or null maps to `none`. -/
def getOptIntField (entries : List (String × Yaml)) (k : String) :
    Except SyncError (Option Int) :=
  match pyLookup k entries with
  | some (.int n) => .ok (some n)
  | some .null => .ok none
  | some _ => .error .typeError
  | none => .ok none

/-- Read an optional boolean field: absent or null maps to `none`. -/
def getOptBoolField (entries : List (String × Yaml)) (k : String) :
    Except SyncError (Option Bool) :=
  match pyLookup k entries with
  | some (.bool b) => .ok (some b)
  | some .null => .ok none
  | some _ => .error .typeError
  | none => .ok none

/-- View a parsed document as a typed record.  A non-mapping document,
a missing `name`/`type`, or a field of the wrong scalar type raises, as
the corresponding dict accesses do in the script. -/
def toRecord (v : Yaml) : Except SyncError DNSRecord :=
  match v with
  | .map entries => do
    let name ← getStrField entries "name"
    let rtype ← getStrField entries "type"
    let content ← getOptStrField entries "content"
    let ttl ← getOptIntField entries "ttl"
    let proxied ← getOptBoolField entries "proxied"
    let priority ← getOptIntField entries "priority"
    .ok ⟨name, rtype, content, ttl, proxied, priority⟩
  | _ => .error .typeError

/-! ## Record Matcher (`DNSSync.find_matching_record`) -/

/-- `DNSSync.find_matching_record`: first live record whose `name` and
`type` both equal the definition's, scanning in snapshot order. -/
def find_matching_record (y : DNSRecord) : List CFRecord → Option CFRecord
  | [] => none
  | c :: rest =>
    if c.name = y.name ∧ c.rtype = y.rtype then some c
    else find_matching_record y rest

/-! ## Diff Evaluator (`DNSSync.records_differ`) -/

/-- Python `value or 3600` on an optional integer: absent and falsy
(zero) both default to 3600. -/
def pyOr3600 : Option Int → Int
  | none => 3600
  | some t => if t = 0 then 3600 else t

/-- `DNSSync.records_differ`: compare `content` exactly, `ttl` after the
falsy-default to 3600, `proxied` after defaulting `None` to false, and,
for MX/SRV definitions only, `priority` with no defaulting. -/
def records_differ (y : DNSRecord) (c : CFRecord) : Bool :=
  if y.content ≠ c.content then true
  else if pyOr3600 y.ttl ≠ pyOr3600 c.ttl then true
  else if y.proxied.getD false ≠ c.proxied.getD false then true
  else if (y.rtype = "MX" ∨ y.rtype = "SRV") ∧ y.priority ≠ c.priority then true
  else false

/-! ## Provider payloads (`CloudflareAPI.create_record` / `update_record`)

Both calls build the same request body: `type`, `name`, `content`
verbatim, `ttl` defaulted to 3600 and `proxied` to false when the key is
absent, and `priority` copied in only when present in the record. -/

/-- The JSON body sent to the provider on create/update. -/
structure Payload where
  rtype : String
  name : String
  content : Option String
  ttl : Int
  proxied : Bool
  priority : Option Int
deriving DecidableEq

/-- The `data` dict built by `create_record` and `update_record`. -/
def buildPayload (r : DNSRecord) : Payload :=
  { rtype := r.rtype, name := r.name, content := r.content,
    ttl := r.ttl.getD 3600, proxied := r.proxied.getD false,
    priority := r.priority }

/-! ## Reconciliation Orchestrator (`DNSSync.sync`)

The orchestrator's I/O collaborators are modelled by an environment of
oracles: the git change report, the snapshot fetch, per-path file and
history contents (as parse results), and the per-call provider
responses.  A run is then a pure function of the environment. -/

/-- The I/O surface that one run of `sync` observes. -/
structure Env where
  recordsDir : String
  report : Except SyncError (List String)
  listRecords : Except SyncError (List CFRecord)
  fileContent : String → Except SyncError Yaml
  historyContent : String → Except SyncError Yaml
  deleteResult : String → Except SyncError Unit
  createResult : Payload → Except SyncError Unit
  updateResult : String → Payload → Except SyncError Unit

/-- The per-file outcome line printed by `sync`: deleted, warning,
created, updated, no-changes-needed, or the caught per-file error. -/
inductive Outcome where
  | deletedRec (name rtype : String) : Outcome
  | warnedNotFound (name rtype : String) : Outcome
  | created (name rtype : String) : Outcome
  | updated (name rtype : String) : Outcome
  | noChange (name rtype : String) : Outcome
  | errored (e : SyncError) : Outcome
deriving DecidableEq

/-- A provider write actually issued during the run, with the payload
the script sends. -/
inductive Call where
  | create (p : Payload) : Call
  | update (id : String) (p : Payload) : Call
  | delete (id : String) : Call
deriving DecidableEq

/-- One iteration of the deletion loop: recover the record from git
history, match it, delete on a match, warn on no match; any raised
error is caught and becomes the file's outcome. -/
def processDeleted (env : Env) (cf : List CFRecord) (fp : String) :
    Outcome × List Call :=
  match (env.historyContent fp).bind toRecord with
  | .error e => (.errored e, [])
  | .ok y =>
    match find_matching_record y cf with
    | some c =>
      match env.deleteResult c.id with
      | .ok _ => (.deletedRec y.name y.rtype, [.delete c.id])
      | .error e => (.errored e, [.delete c.id])
    | none => (.warnedNotFound y.name y.rtype, [])

/-- One iteration of the addition loop: load and validate the file,
match it; update when a matching live record differs, no-op when it is
identical, create when there is no match; any raised error is caught
and becomes the file's outcome. -/
def processAdded (env : Env) (cf : List CFRecord) (fp : String) :
    Outcome × List Call :=
  match ((env.fileContent fp).bind load_yaml_record).bind toRecord with
  | .error e => (.errored e, [])
  | .ok y =>
    match find_matching_record y cf with
    | some c =>
      if records_differ y c then
        match env.updateResult c.id (buildPayload y) with
        | .ok _ => (.updated y.name y.rtype, [.update c.id (buildPayload y)])
        | .error e => (.errored e, [.update c.id (buildPayload y)])
      else (.noChange y.name y.rtype, [])
    | none =>
      match env.createResult (buildPayload y) with
      | .ok _ => (.created y.name y.rtype, [.create (buildPayload y)])
      | .error e => (.errored e, [.create (buildPayload y)])

/-- One iteration of the modification loop: same decision table as the
addition loop (matched+differs → update, matched+identical → no-op,
unmatched → create). -/
def processModified (env : Env) (cf : List CFRecord) (fp : String) :
    Outcome × List Call :=
  match ((env.fileContent fp).bind load_yaml_record).bind toRecord with
  | .error e => (.errored e, [])
  | .ok y =>
    match find_matching_record y cf with
    | some c =>
      if records_differ y c then
        match env.updateResult c.id (buildPayload y) with
        | .ok _ => (.updated y.name y.rtype, [.update c.id (buildPayload y)])
        | .error e => (.errored e, [.update c.id (buildPayload y)])
      else (.noChange y.name y.rtype, [])
    | none =>
      match env.createResult (buildPayload y) with
      | .ok _ => (.created y.name y.rtype, [.create (buildPayload y)])
      | .error e => (.errored e, [.create (buildPayload y)])

/-- One `for filepath in changes[...]` loop: every file is processed,
each contributing its own outcome and its provider calls. -/
def runPhase (process : String → Outcome × List Call) :
    List String → List (String × Outcome) × List Call
  | [] => ([], [])
  | fp :: rest =>
    let r := process fp
    let rs := runPhase process rest
    ((fp, r.1) :: rs.1, r.2 ++ rs.2)

/-- `DNSSync.sync`: fetch the change report and classify it (failures
are fatal), return early when no set is non-empty, fetch the snapshot
(failure fatal), then run the deletion, addition and modification
phases in order. -/
def sync (env : Env) : Except SyncError (List (String × Outcome) × List Call) :=
  match env.report with
  | .error e => .error e
  | .ok lines =>
    match get_changed_files env.recordsDir lines with
    | .error e => .error e
    | .ok changes =>
      if changes.added.isEmpty && changes.modified.isEmpty && changes.deleted.isEmpty then
        .ok ([], [])
      else
        match env.listRecords with
        | .error e => .error e
        | .ok cf =>
          let d := runPhase (processDeleted env cf) changes.deleted
          let a := runPhase (processAdded env cf) changes.added
          let m := runPhase (processModified env cf) changes.modified
          .ok (d.1 ++ a.1 ++ m.1, d.2 ++ a.2 ++ m.2)

/-! ## Classifier helper lemmas -/

/-- Membership after a Python `set.add`. -/
theorem mem_insertPath (p q : String) (l : List String) :
    p ∈ insertPath q l ↔ p ∈ l ∨ p = q := by
  unfold insertPath
  split_ifs with h
  · constructor
    · exact fun hp => Or.inl hp
    · rintro (hp | rfl)
      · exact hp
      · exact h
  · simp

/-- Membership in each set after classifying one `(status, path)` pair:
the accumulator grows by `path` exactly in the set selected by the
status, and only when the path passes the directory/extension filter. -/
theorem mem_classifyPair (rd s q p : String) (cs : ChangeSet) :
    (p ∈ (classifyPair rd s q cs).added ↔
      p ∈ cs.added ∨ (s = "A" ∧ q = p ∧ keepPath rd p = true)) ∧
    (p ∈ (classifyPair rd s q cs).modified ↔
      p ∈ cs.modified ∨ (s = "M" ∧ q = p ∧ keepPath rd p = true)) ∧
    (p ∈ (classifyPair rd s q cs).deleted ↔
      p ∈ cs.deleted ∨ (s = "D" ∧ q = p ∧ keepPath rd p = true)) := by
  unfold classifyPair
  split_ifs <;> refine ⟨?_, ?_, ?_⟩ <;> simp_all [mem_insertPath] <;> aesop

/-- The classifier loop characterised by membership: it never errors on
a report whose non-empty lines all parse, and a path is in a final set
iff it was already in the accumulator or some line of the report parses
to the corresponding status with that path and the path passes the
filter. -/
theorem classifyLines_spec (rd : String) (lines : List String) :
    ∀ cs0 : ChangeSet,
      (∀ line ∈ lines, line ≠ "" → parseLine line ≠ none) →
      ∃ cs, classifyLines rd lines cs0 = .ok cs ∧
        ∀ p : String,
          (p ∈ cs.added ↔ p ∈ cs0.added ∨
            ∃ line ∈ lines, parseLine line = some ("A", p) ∧ keepPath rd p = true) ∧
          (p ∈ cs.modified ↔ p ∈ cs0.modified ∨
            ∃ line ∈ lines, parseLine line = some ("M", p) ∧ keepPath rd p = true) ∧
          (p ∈ cs.deleted ↔ p ∈ cs0.deleted ∨
            ∃ line ∈ lines, parseLine line = some ("D", p) ∧ keepPath rd p = true) := by
  induction lines with
  | nil => exact fun cs0 _ => ⟨cs0, rfl, by simp⟩
  | cons line rest ih =>
    intro cs0 hp
    by_cases hline : line = ""
    · subst hline
      obtain ⟨cs, hok, hmem⟩ := ih cs0 (fun l hl => hp l (List.mem_cons_of_mem _ hl))
      refine ⟨cs, by simpa [classifyLines] using hok, ?_⟩
      intro p
      have h0 : parseLine "" = none := rfl
      obtain ⟨ha, hm, hd⟩ := hmem p
      refine ⟨?_, ?_, ?_⟩
      · rw [ha, List.exists_mem_cons_iff]
        simp [h0]
      · rw [hm, List.exists_mem_cons_iff]
        simp [h0]
      · rw [hd, List.exists_mem_cons_iff]
        simp [h0]
    · rcases hparse : parseLine line with _ | ⟨s, q⟩
      · exact absurd hparse (hp line (List.mem_cons_self _ _) hline)
      · obtain ⟨cs, hok, hmem⟩ :=
          ih (classifyPair rd s q cs0) (fun l hl => hp l (List.mem_cons_of_mem _ hl))
        refine ⟨cs, by simp [classifyLines, hline, hparse, hok], ?_⟩
        intro p
        obtain ⟨ha, hm, hd⟩ := hmem p
        obtain ⟨ca, cm, cd⟩ := mem_classifyPair rd s q p cs0
        refine ⟨?_, ?_, ?_⟩
        · rw [ha, ca, List.exists_mem_cons_iff, hparse]
          simp only [Option.some.injEq, Prod.mk.injEq, and_assoc, or_assoc]
        · rw [hm, cm, List.exists_mem_cons_iff, hparse]
          simp only [Option.some.injEq, Prod.mk.injEq, and_assoc, or_assoc]
        · rw [hd, cd, List.exists_mem_cons_iff, hparse]
          simp only [Option.some.injEq, Prod.mk.injEq, and_assoc, or_assoc]

/-- A report containing a non-empty line with no tab makes the
classifier loop fail with the index error, whatever the accumulator. -/
theorem classifyLines_error (rd : String) (line : String)
    (h2 : line ≠ "") (h3 : parseLine line = none) :
    ∀ lines : List String, line ∈ lines →
      ∀ cs0, classifyLines rd lines cs0 = .error .indexError := by
  intro lines
  induction lines with
  | nil => intro h; cases h
  | cons l rest ih =>
    intro h1 cs0
    by_cases hl : l = ""
    · subst hl
      have hmem : line ∈ rest := by
        rcases List.mem_cons.mp h1 with h | h
        · exact absurd h h2
        · exact h
      simpa [classifyLines] using ih hmem cs0
    · rcases hparse : parseLine l with _ | pr
      · simp [classifyLines, hl, hparse]
      · have hmem : line ∈ rest := by
          rcases List.mem_cons.mp h1 with h | h
          · subst h; rw [h3] at hparse; cases hparse
          · exact h
        obtain ⟨s, q⟩ := pr
        simpa [classifyLines, hl, hparse] using ih hmem (classifyPair rd s q cs0)

/-- The parsed `(status, path)` pairs of a change report. -/
def parsedPairs (lines : List String) : List (String × String) :=
  lines.filterMap parseLine

/-- C3: on a report whose non-empty lines all parse, the classifier
succeeds, and a path is placed in `added`/`modified`/`deleted` exactly
when some line parses to status A/M/D respectively with that path and
the path starts with the records-directory prefix plus "/" and ends in
the case-sensitive suffix ".yaml" or ".yml" (`keepPath`); in particular
lines with any other status contribute to no set, rather than failing. -/
theorem get_changed_files_spec (rd : String) (lines : List String)
    (hp : ∀ line ∈ lines, line ≠ "" → parseLine line ≠ none) :
    ∃ cs, get_changed_files rd lines = .ok cs ∧
      ∀ p : String,
        (p ∈ cs.added ↔
          ∃ line ∈ lines, parseLine line = some ("A", p) ∧ keepPath rd p = true) ∧
        (p ∈ cs.modified ↔
          ∃ line ∈ lines, parseLine line = some ("M", p) ∧ keepPath rd p = true) ∧
        (p ∈ cs.deleted ↔
          ∃ line ∈ lines, parseLine line = some ("D", p) ∧ keepPath rd p = true) := by
  obtain ⟨cs, hok, hmem⟩ := classifyLines_spec rd lines ⟨[], [], []⟩ hp
  refine ⟨cs, hok, fun p => ?_⟩
  obtain ⟨ha, hm, hd⟩ := hmem p
  exact ⟨by simpa using ha, by simpa using hm, by simpa using hd⟩

/-- Witness for C3 on a concrete report: an added record file, an
unrecognized status, a path outside the records directory, a path with
the wrong extension, and an empty line. -/
theorem get_changed_files_spec_witness :
    ∃ cs,
      get_changed_files "records"
          ["A\trecords/a.yaml", "X\trecords/b.yaml", "M\tREADME.md",
            "D\trecords/notes.txt", ""] = .ok cs ∧
      ∀ p : String,
        (p ∈ cs.added ↔
          ∃ line ∈ ["A\trecords/a.yaml", "X\trecords/b.yaml", "M\tREADME.md",
            "D\trecords/notes.txt", ""],
            parseLine line = some ("A", p) ∧ keepPath "records" p = true) ∧
        (p ∈ cs.modified ↔
          ∃ line ∈ ["A\trecords/a.yaml", "X\trecords/b.yaml", "M\tREADME.md",
            "D\trecords/notes.txt", ""],
            parseLine line = some ("M", p) ∧ keepPath "records" p = true) ∧
        (p ∈ cs.deleted ↔
          ∃ line ∈ ["A\trecords/a.yaml", "X\trecords/b.yaml", "M\tREADME.md",
            "D\trecords/notes.txt", ""],
            parseLine line = some ("D", p) ∧ keepPath "records" p = true) :=
  get_changed_files_spec "records" _ (by decide)

/-- C8: a change report containing a non-empty line that does not split
into a `(status, path)` pair (no tab separator) makes
`get_changed_files` fail — the `parts[1]` access raises, so the report
is rejected rather than partially processed. -/
theorem get_changed_files_unparsable (rd : String) (lines : List String)
    (line : String) (h1 : line ∈ lines) (h2 : line ≠ "")
    (h3 : parseLine line = none) :
    get_changed_files rd lines = .error .indexError :=
  classifyLines_error rd line h2 h3 lines h1 ⟨[], [], []⟩

/-- Witness for C8: a report with one well-formed line and one tab-less
line is rejected. -/
theorem get_changed_files_unparsable_witness :
    get_changed_files "records" ["A\trecords/a.yaml", "garbage-line"] =
      .error .indexError :=
  get_changed_files_unparsable "records" _ "garbage-line" (by decide)
    (by decide) (by decide)

/-- C9 counterexample: a change report that lists the same path under
status A and status D yields a `ChangeSet` whose `added` and `deleted`
sets both contain that path, so the three sets are not mutually
exclusive for every change report. -/
theorem get_changed_files_overlap :
    ∃ cs, get_changed_files "records"
        ["A\trecords/x.yaml", "D\trecords/x.yaml"] = .ok cs ∧
      "records/x.yaml" ∈ cs.added ∧ "records/x.yaml" ∈ cs.deleted :=
  ⟨⟨["records/x.yaml"], [], ["records/x.yaml"]⟩, rfl, by simp, by simp⟩

/-- C9 (amended): for every change report whose parsed `(status, path)`
pairs have pairwise-distinct paths — as `git diff` between two revisions
produces — the three sets of the resulting `ChangeSet` are mutually
exclusive. -/
theorem get_changed_files_disjoint (rd : String) (lines : List String)
    (cs : ChangeSet) (h : get_changed_files rd lines = .ok cs)
    (hnd : ((parsedPairs lines).map Prod.snd).Nodup) :
    (∀ p ∈ cs.added, p ∉ cs.modified) ∧ (∀ p ∈ cs.added, p ∉ cs.deleted) ∧
    (∀ p ∈ cs.modified, p ∉ cs.deleted) := by
  rw [get_changed_files] at h
  have hp : ∀ line ∈ lines, line ≠ "" → parseLine line ≠ none := by
    intro l hl hne hn
    rw [classifyLines_error rd l hne hn lines hl ⟨[], [], []⟩] at h
    cases h
  obtain ⟨cs2, hok, hmem⟩ := classifyLines_spec rd lines ⟨[], [], []⟩ hp
  rw [h] at hok
  have hcs := Except.ok.inj hok
  subst hcs
  have key : ∀ s1 s2 p, s1 ≠ s2 →
      ¬((∃ line ∈ lines, parseLine line = some (s1, p) ∧ keepPath rd p = true) ∧
        (∃ line ∈ lines, parseLine line = some (s2, p) ∧ keepPath rd p = true)) := by
    rintro s1 s2 p hne ⟨⟨l1, hl1, hp1, _⟩, ⟨l2, hl2, hp2, _⟩⟩
    have m1 : (s1, p) ∈ parsedPairs lines :=
      List.mem_filterMap.mpr ⟨l1, hl1, hp1⟩
    have m2 : (s2, p) ∈ parsedPairs lines :=
      List.mem_filterMap.mpr ⟨l2, hl2, hp2⟩
    have := List.inj_on_of_nodup_map hnd m1 m2 rfl
    exact hne (congrArg Prod.fst this)
  refine ⟨?_, ?_, ?_⟩
  · intro p hpa hpm
    obtain ⟨ha, hm, _⟩ := hmem p
    simp only [ChangeSet.added, List.not_mem_nil, false_or] at ha
    simp only [ChangeSet.modified, List.not_mem_nil, false_or] at hm
    exact key "A" "M" p (by decide) ⟨ha.mp hpa, hm.mp hpm⟩
  · intro p hpa hpd
    obtain ⟨ha, _, hd⟩ := hmem p
    simp only [ChangeSet.added, List.not_mem_nil, false_or] at ha
    simp only [ChangeSet.deleted, List.not_mem_nil, false_or] at hd
    exact key "A" "D" p (by decide) ⟨ha.mp hpa, hd.mp hpd⟩
  · intro p hpm hpd
    obtain ⟨_, hm, hd⟩ := hmem p
    simp only [ChangeSet.modified, List.not_mem_nil, false_or] at hm
    simp only [ChangeSet.deleted, List.not_mem_nil, false_or] at hd
    exact key "M" "D" p (by decide) ⟨hm.mp hpm, hd.mp hpd⟩

/-- Witness for the amended C9 on a concrete report with distinct
paths: the three resulting sets are pairwise disjoint. -/
theorem get_changed_files_disjoint_witness :
    (∀ p ∈ (⟨["records/a.yaml"], [], ["records/b.yaml"]⟩ : ChangeSet).added,
      p ∉ (⟨["records/a.yaml"], [], ["records/b.yaml"]⟩ : ChangeSet).modified) ∧
    (∀ p ∈ (⟨["records/a.yaml"], [], ["records/b.yaml"]⟩ : ChangeSet).added,
      p ∉ (⟨["records/a.yaml"], [], ["records/b.yaml"]⟩ : ChangeSet).deleted) ∧
    (∀ p ∈ (⟨["records/a.yaml"], [], ["records/b.yaml"]⟩ : ChangeSet).modified,
      p ∉ (⟨["records/a.yaml"], [], ["records/b.yaml"]⟩ : ChangeSet).deleted) :=
  get_changed_files_disjoint "records" ["A\trecords/a.yaml", "D\trecords/b.yaml"]
    ⟨["records/a.yaml"], [], ["records/b.yaml"]⟩ rfl (by decide)

/-! ## Concrete fixtures used by witnesses -/

/-- A typical A-record definition with `ttl`/`proxied` absent. -/
def yApi : DNSRecord :=
  ⟨"api.example.com", "A", some "1.2.3.4", none, none, none⟩

/-- The matching live record with provider defaults materialised. -/
def cfApi : CFRecord :=
  ⟨"cf1", "api.example.com", "A", some "1.2.3.4", some 3600, some false, none⟩

/-- A live record with a different identity. -/
def cfOther : CFRecord :=
  ⟨"cf2", "www.example.com", "CNAME", some "example.com", some 300, some true, none⟩

/-- When the definition's type is neither MX nor SRV, the priority
fields of both records are dead in `records_differ`. -/
theorem records_differ_priority_swap (y : DNSRecord) (c : CFRecord)
    (h1 : y.rtype ≠ "MX") (h2 : y.rtype ≠ "SRV") (py pc : Option Int) :
    records_differ { y with priority := py } { c with priority := pc } =
      records_differ y c := by
  obtain ⟨n, t, co, tt, px, pr⟩ := y
  obtain ⟨i, cn, ct, cco, ctt, cpx, cpr⟩ := c
  simp [records_differ, h1, h2]

/-- The first projection of a phase run: every file of the phase list is
processed in order, each paired with the outcome its own processing
produces. -/
theorem runPhase_fst (process : String → Outcome × List Call)
    (l : List String) :
    (runPhase process l).1 = l.map (fun fp => (fp, (process fp).1)) := by
  induction l with
  | nil => rfl
  | cons fp rest ih => simp [runPhase, ih]

/-- A run whose report, classification and snapshot fetch all succeed,
and whose change set is non-empty, executes all three phases and returns
their concatenated outcomes and provider calls. -/
theorem sync_run (env : Env) (lines : List String) (changes : ChangeSet)
    (cf : List CFRecord)
    (h0 : env.report = .ok lines)
    (h1 : get_changed_files env.recordsDir lines = .ok changes)
    (h2 : env.listRecords = .ok cf)
    (hne : (changes.added.isEmpty && changes.modified.isEmpty &&
      changes.deleted.isEmpty) = false) :
    sync env = .ok
      ((runPhase (processDeleted env cf) changes.deleted).1 ++
        (runPhase (processAdded env cf) changes.added).1 ++
        (runPhase (processModified env cf) changes.modified).1,
      (runPhase (processDeleted env cf) changes.deleted).2 ++
        (runPhase (processAdded env cf) changes.added).2 ++
        (runPhase (processModified env cf) changes.modified).2) := by
  unfold sync
  rw [h0]; dsimp only
  rw [h1]; dsimp only
  rw [hne]
  simp [h2]

/-! ## Claim theorems -/

/-- C1: `records_differ` returns true iff the `content` fields differ
exactly, or the `ttl` values differ after defaulting absent/falsy sides
to 3600, or the `proxied` values differ after defaulting absent sides to
false, or the definition's type is MX or SRV and the `priority` values
differ with no defaulting; and for any other type, changing `priority`
on either side never affects the verdict. -/
theorem records_differ_spec (y : DNSRecord) (c : CFRecord) :
    (records_differ y c = true ↔
      y.content ≠ c.content ∨ pyOr3600 y.ttl ≠ pyOr3600 c.ttl ∨
        y.proxied.getD false ≠ c.proxied.getD false ∨
        ((y.rtype = "MX" ∨ y.rtype = "SRV") ∧ y.priority ≠ c.priority)) ∧
    (y.rtype ≠ "MX" → y.rtype ≠ "SRV" → ∀ py pc : Option Int,
      records_differ { y with priority := py } { c with priority := pc } =
        records_differ y c) := by
  constructor
  · unfold records_differ
    split_ifs <;> simp_all
  · exact fun h1 h2 py pc => records_differ_priority_swap y c h1 h2 py pc

/-- Witness for C1 at a concrete A record: replacing the priorities on
both sides leaves the verdict unchanged. -/
theorem records_differ_spec_witness :
    records_differ { yApi with priority := some 10 }
        { cfApi with priority := some 3 } =
      records_differ yApi cfApi :=
  (records_differ_spec yApi cfApi).2 (by decide) (by decide) (some 10) (some 3)

/-- C4: `find_matching_record` returns `none` exactly when no live
record agrees with the definition on both `name` and `type` under exact
string equality, and any returned record is a live record matching on
both fields that is preceded in snapshot order only by non-matching
records. -/
theorem find_matching_record_spec (y : DNSRecord) (cfs : List CFRecord) :
    (find_matching_record y cfs = none ↔
      ∀ c ∈ cfs, ¬(c.name = y.name ∧ c.rtype = y.rtype)) ∧
    (∀ c, find_matching_record y cfs = some c →
      (c.name = y.name ∧ c.rtype = y.rtype) ∧
      ∃ pre post, cfs = pre ++ c :: post ∧
        ∀ c2 ∈ pre, ¬(c2.name = y.name ∧ c2.rtype = y.rtype)) := by
  induction cfs with
  | nil => simp [find_matching_record]
  | cons c rest ih =>
    by_cases h : c.name = y.name ∧ c.rtype = y.rtype
    · refine ⟨by simp [find_matching_record, h], ?_⟩
      intro c2 hc2
      simp only [find_matching_record, if_pos h] at hc2
      cases hc2
      exact ⟨h, [], rest, rfl, by simp⟩
    · constructor
      · simp only [find_matching_record, if_neg h]
        rw [ih.1]
        constructor
        · intro hr c2 hc2
          rcases List.mem_cons.mp hc2 with h2 | h2
          · subst h2; exact h
          · exact hr c2 h2
        · intro hall c2 hc2
          exact hall c2 (List.mem_cons_of_mem _ hc2)
      · intro c2 hc2
        simp only [find_matching_record, if_neg h] at hc2
        obtain ⟨hm, pre, post, hsplit, hpre⟩ := ih.2 c2 hc2
        refine ⟨hm, c :: pre, post, by simp [hsplit], ?_⟩
        intro c3 hc3
        rcases List.mem_cons.mp hc3 with h3 | h3
        · subst h3; exact h
        · exact hpre c3 h3

/-- Witness for C4: in a two-record snapshot whose first entry does not
match, the matcher returns the second entry, which matches on both
fields and is preceded only by non-matching records. -/
theorem find_matching_record_spec_witness :
    (cfApi.name = yApi.name ∧ cfApi.rtype = yApi.rtype) ∧
    ∃ pre post, [cfOther, cfApi] = pre ++ cfApi :: post ∧
      ∀ c2 ∈ pre, ¬(c2.name = yApi.name ∧ c2.rtype = yApi.rtype) :=
  (find_matching_record_spec yApi [cfOther, cfApi]).2 cfApi rfl

/-- C5: on a parsed mapping, `load_yaml_record` succeeds — returning the
document unchanged, with no field coerced and `priority` never required —
exactly when `name`, `type` and `content` are all present; every failure
is a `ValidationError` naming one of those three fields, and that field
is indeed absent; and whenever one of the three is absent it does fail
with a `ValidationError`. -/
theorem load_yaml_record_spec (entries : List (String × Yaml)) :
    (load_yaml_record (.map entries) = .ok (.map entries) ↔
      hasKey entries "name" = true ∧ hasKey entries "type" = true ∧
        hasKey entries "content" = true) ∧
    (∀ f, load_yaml_record (.map entries) = .error (.validationError f) →
      f ∈ (["name", "type", "content"] : List String) ∧
        hasKey entries f = false) ∧
    ((hasKey entries "name" = false ∨ hasKey entries "type" = false ∨
        hasKey entries "content" = false) →
      ∃ f, load_yaml_record (.map entries) = .error (.validationError f)) := by
  rcases hn : hasKey entries "name" <;> rcases ht : hasKey entries "type" <;>
    rcases hc : hasKey entries "content" <;>
      simp_all [load_yaml_record, checkRequired, pyContains]

/-- Witness for C5: a mapping with all three required fields present
loads successfully and is returned unchanged. -/
theorem load_yaml_record_spec_witness :
    load_yaml_record
        (.map [("name", .str "api.example.com"), ("type", .str "A"),
          ("content", .str "1.2.3.4")]) =
      .ok (.map [("name", .str "api.example.com"), ("type", .str "A"),
        ("content", .str "1.2.3.4")]) :=
  (load_yaml_record_spec _).1.mpr (by decide)

/-- C10: a document that parses to `None` makes the membership check of
`load_yaml_record` raise a `TypeError` rather than a `ValidationError`
naming a field, and a document that parses to a plain string containing
"name", "type" and "content" as substrings passes validation and is
returned even though it is not a mapping. -/
theorem load_yaml_record_nonmapping :
    load_yaml_record .null = .error .typeError ∧
    (∀ f, load_yaml_record .null ≠ .error (.validationError f)) ∧
    load_yaml_record (.str "a name of type X with content") =
      .ok (.str "a name of type X with content") :=
  ⟨rfl, fun _ => by simp [load_yaml_record, checkRequired, pyContains], rfl⟩

/-! ## Orchestrator fixtures -/

/-- History content of a deleted record file. -/
def yamlOld : Yaml :=
  .map [("name", .str "old.example.com"), ("type", .str "A"),
    ("content", .str "1.1.1.1")]

/-- The typed view of `yamlOld`. -/
def yOld : DNSRecord :=
  ⟨"old.example.com", "A", some "1.1.1.1", none, none, none⟩

/-- Current content of an added record file. -/
def yamlNew : Yaml :=
  .map [("name", .str "api.example.com"), ("type", .str "A"),
    ("content", .str "1.2.3.4")]

/-- A three-line change report: one deletion, one addition, one
modification. -/
def linesW : List String :=
  ["D\trecords/old.yaml", "A\trecords/new.yaml", "M\trecords/mod.yaml"]

/-- The classification of `linesW`. -/
def changesW : ChangeSet :=
  ⟨["records/new.yaml"], ["records/mod.yaml"], ["records/old.yaml"]⟩

/-- A concrete run environment: the modified file's content is
unreadable (its processing errors), the deleted file's history has no
live counterpart, and the added file matches the snapshot entry. -/
def envW : Env :=
  { recordsDir := "records"
    report := .ok linesW
    listRecords := .ok [cfApi]
    fileContent := fun fp =>
      if fp = "records/new.yaml" then .ok yamlNew else .error .ioError
    historyContent := fun fp =>
      if fp = "records/old.yaml" then .ok yamlOld else .error .ioError
    deleteResult := fun _ => .ok ()
    createResult := fun _ => .ok ()
    updateResult := fun _ _ => .ok () }

/-- C2: whenever the change-report fetch, its classification and the
snapshot fetch succeed, the run completes without a fatal error: the
outcome list pairs every file of the deleted, added and modified phases
(in phase order) with the outcome of processing that file alone — a
per-file failure is recorded as that file's `errored` outcome and every
other file in every phase is still processed. -/
theorem sync_fault_isolation (env : Env) (lines : List String)
    (changes : ChangeSet) (cf : List CFRecord)
    (h0 : env.report = .ok lines)
    (h1 : get_changed_files env.recordsDir lines = .ok changes)
    (h2 : env.listRecords = .ok cf) :
    ∃ outcomes calls, sync env = .ok (outcomes, calls) ∧
      outcomes.map Prod.fst =
        changes.deleted ++ changes.added ++ changes.modified ∧
      (∀ fp ∈ changes.deleted, (fp, (processDeleted env cf fp).1) ∈ outcomes) ∧
      (∀ fp ∈ changes.added, (fp, (processAdded env cf fp).1) ∈ outcomes) ∧
      (∀ fp ∈ changes.modified, (fp, (processModified env cf fp).1) ∈ outcomes) := by
  by_cases hne : (changes.added.isEmpty && changes.modified.isEmpty &&
      changes.deleted.isEmpty) = true
  · obtain ⟨⟨he1, he2⟩, he3⟩ :
        (changes.added.isEmpty = true ∧ changes.modified.isEmpty = true) ∧
          changes.deleted.isEmpty = true := by simpa using hne
    rw [List.isEmpty_iff] at he1 he2 he3
    refine ⟨[], [], ?_, by simp [he1, he2, he3], ?_, ?_, ?_⟩
    · unfold sync
      rw [h0]; dsimp only
      rw [h1]; dsimp only
      rw [if_pos hne]
    · intro fp hfp; rw [he3] at hfp; cases hfp
    · intro fp hfp; rw [he1] at hfp; cases hfp
    · intro fp hfp; rw [he2] at hfp; cases hfp
  · have hrun := sync_run env lines changes cf h0 h1 h2
      (Bool.not_eq_true _ ▸ hne)
    refine ⟨_, _, hrun, ?_, ?_, ?_, ?_⟩
    · simp [runPhase_fst, List.map_map, Function.comp_def]
    · intro fp hfp
      apply List.mem_append_left
      apply List.mem_append_left
      rw [runPhase_fst]
      exact List.mem_map_of_mem _ hfp
    · intro fp hfp
      apply List.mem_append_left
      apply List.mem_append_right
      rw [runPhase_fst]
      exact List.mem_map_of_mem _ hfp
    · intro fp hfp
      apply List.mem_append_right
      rw [runPhase_fst]
      exact List.mem_map_of_mem _ hfp

/-- Witness for C2 on `envW`: the modified file's content is unreadable
yet the run completes, reporting all three files, each with its own
outcome. -/
theorem sync_fault_isolation_witness :
    ∃ outcomes calls, sync envW = .ok (outcomes, calls) ∧
      outcomes.map Prod.fst =
        changesW.deleted ++ changesW.added ++ changesW.modified ∧
      (∀ fp ∈ changesW.deleted,
        (fp, (processDeleted envW [cfApi] fp).1) ∈ outcomes) ∧
      (∀ fp ∈ changesW.added,
        (fp, (processAdded envW [cfApi] fp).1) ∈ outcomes) ∧
      (∀ fp ∈ changesW.modified,
        (fp, (processModified envW [cfApi] fp).1) ∈ outcomes) :=
  sync_fault_isolation envW linesW changesW [cfApi] rfl rfl rfl

/-- C6: a deleted file whose recovered last-known definition matches no
live record produces the not-found warning outcome (not an error), its
processing issues no provider call, and the run still completes with
every file of every phase processed. -/
theorem deleted_no_live_match_warns (env : Env) (lines : List String)
    (changes : ChangeSet) (cf : List CFRecord) (fp : String) (y : DNSRecord)
    (h0 : env.report = .ok lines)
    (h1 : get_changed_files env.recordsDir lines = .ok changes)
    (h2 : env.listRecords = .ok cf)
    (h3 : fp ∈ changes.deleted)
    (h4 : (env.historyContent fp).bind toRecord = .ok y)
    (h5 : find_matching_record y cf = none) :
    processDeleted env cf fp = (.warnedNotFound y.name y.rtype, []) ∧
    ∃ outcomes calls, sync env = .ok (outcomes, calls) ∧
      (fp, Outcome.warnedNotFound y.name y.rtype) ∈ outcomes ∧
      outcomes.map Prod.fst =
        changes.deleted ++ changes.added ++ changes.modified := by
  have hpd : processDeleted env cf fp = (.warnedNotFound y.name y.rtype, []) := by
    unfold processDeleted
    rw [h4]; dsimp only
    rw [h5]
  have hne : (changes.added.isEmpty && changes.modified.isEmpty &&
      changes.deleted.isEmpty) = false := by
    rcases hd : changes.deleted with _ | ⟨x, xs⟩
    · rw [hd] at h3; cases h3
    · simp
  have hrun := sync_run env lines changes cf h0 h1 h2 hne
  refine ⟨hpd, _, _, hrun, ?_, ?_⟩
  · apply List.mem_append_left
    apply List.mem_append_left
    rw [runPhase_fst]
    simpa [hpd] using
      List.mem_map_of_mem (fun q => (q, (processDeleted env cf q).1)) h3
  · simp [runPhase_fst, List.map_map, Function.comp_def]

/-- Witness for C6 on `envW`: the deleted file's record has no live
counterpart, so it is warned about with no provider call, and the run
completes over all three files. -/
theorem deleted_no_live_match_warns_witness :
    processDeleted envW [cfApi] "records/old.yaml" =
      (.warnedNotFound yOld.name yOld.rtype, []) ∧
    ∃ outcomes calls, sync envW = .ok (outcomes, calls) ∧
      ("records/old.yaml", Outcome.warnedNotFound yOld.name yOld.rtype) ∈ outcomes ∧
      outcomes.map Prod.fst =
        changesW.deleted ++ changesW.added ++ changesW.modified :=
  deleted_no_live_match_warns envW linesW changesW [cfApi] "records/old.yaml"
    yOld rfl rfl rfl (by decide) rfl rfl

/-! ## Priority handling (C7) -/

/-- An A record carrying a (spurious) `priority` field. -/
def yamlPrio : Yaml :=
  .map [("name", .str "a.example.com"), ("type", .str "A"),
    ("content", .str "1.2.3.4"), ("priority", .int 10)]

/-- The typed view of `yamlPrio`. -/
def yPrio : DNSRecord :=
  ⟨"a.example.com", "A", some "1.2.3.4", none, none, some 10⟩

/-- A run environment whose snapshot is empty and whose only file
content is `yamlPrio`. -/
def envPrio : Env :=
  { recordsDir := "records"
    report := .ok ["A\trecords/a.yaml"]
    listRecords := .ok []
    fileContent := fun _ => .ok yamlPrio
    historyContent := fun _ => .error .ioError
    deleteResult := fun _ => .ok ()
    createResult := fun _ => .ok ()
    updateResult := fun _ _ => .ok () }

/-- C7 counterexample: an A record (type neither MX nor SRV) with a
`priority` field passes validation, and processing it as an added file
issues a create call whose payload carries `priority = 10` — the
priority field is part of the record data sent to the provider, because
`create_record`/`update_record` copy `priority` whenever the key is
present, with no check on the record type. -/
theorem priority_sent_for_plain_type :
    yPrio.rtype = "A" ∧
    (buildPayload yPrio).priority = some 10 ∧
    (processAdded envPrio [] "records/a.yaml").2 =
      [Call.create (buildPayload yPrio)] :=
  ⟨rfl, rfl, rfl⟩

/-- C7 (amended): for a definition whose type is neither MX nor SRV the
priority field never affects the Diff Evaluator's verdict; in the
create/update request body, `priority` is included exactly when it is
present in the record — so it is omitted for the (conforming) records
that carry no priority, but a present value is sent regardless of
type. -/
theorem priority_only_affects_mx_srv (y : DNSRecord) (c : CFRecord)
    (h1 : y.rtype ≠ "MX") (h2 : y.rtype ≠ "SRV") :
    (∀ py pc : Option Int,
      records_differ { y with priority := py } { c with priority := pc } =
        records_differ y c) ∧
    (buildPayload y).priority = y.priority :=
  ⟨fun py pc => records_differ_priority_swap y c h1 h2 py pc, rfl⟩

/-- Witness for the amended C7 at a concrete A record. -/
theorem priority_only_affects_mx_srv_witness :
    records_differ { yApi with priority := some 5 }
        { cfApi with priority := some 7 } =
      records_differ yApi cfApi ∧
    (buildPayload yApi).priority = yApi.priority :=
  ⟨(priority_only_affects_mx_srv yApi cfApi (by decide) (by decide)).1
      (some 5) (some 7),
   (priority_only_affects_mx_srv yApi cfApi (by decide) (by decide)).2⟩

end DnsSync
